import Mathlib

/-!
Shallow embedding of the MASTER-pytorch transformer core
(src/model/transformer.py).

Tensors are modelled per batch element and per attention head: a sequence of
feature vectors is a function Fin seq → Fin dim → ℝ, and a boolean attention
mask is Fin query_len → Fin key_len → Bool.  All attention, masking and
positional-encoding arithmetic in the source acts independently on each batch
element and each head (the extra axes are pure broadcasts), so nothing is lost
by dropping those axes.  Floating-point arithmetic is idealised as exact real
arithmetic; torch.softmax over the last axis is the standard exponential
normalisation, which the (numerically stabilised) torch kernel computes
exactly in real arithmetic.
-/

namespace MasterTransformer

/-! ### Masks (transformer.py: subsequent_mask, Encoder._generate_mask,
Decoder._generate_target_mask) -/

/-- Translation of subsequent_mask (line 21): torch.tril of an all-ones
square boolean matrix; entry (i, j) is true iff j ≤ i.  The broadcast batch
and head axes are dropped. -/
def subsequent_mask (n : ℕ) : Fin n → Fin n → Bool :=
  fun i j => decide ((j : ℕ) ≤ (i : ℕ))

/-- Translation of the first line of Decoder._generate_target_mask (line 202):
(_target != self.padding_symbol).unsqueeze(1).unsqueeze(3) has shape
(batch, 1, len, 1); per batch element it is a (len, 1) column, indexed here by
the query position and a single broadcast column index. -/
def target_pad_mask {n : ℕ} (padding_symbol : ℤ) (_target : Fin n → ℤ) :
    Fin n → Fin 1 → Bool :=
  fun i _ => decide (_target i ≠ padding_symbol)

/-- Translation of target_sub_mask (lines 204-206): torch.tril of an all-ones
uint8 matrix of shape (len, len), cast to bool at line 208. -/
def target_sub_mask (n : ℕ) : Fin n → Fin n → Bool :=
  fun i j => decide ((j : ℕ) ≤ (i : ℕ))

/-- Translation of target_mask (line 208): target_pad_mask & target_sub_mask
with broadcasting.  Broadcasting a (len, 1) column against a (len, len)
matrix evaluates the column at column index 0 for every key position j, so
entry (i, j) is target_pad_mask i 0 && target_sub_mask i j: the pad test
depends only on the query position i. -/
def generate_target_mask {n : ℕ} (padding_symbol : ℤ) (_target : Fin n → ℤ) :
    Fin n → Fin n → Bool :=
  fun i j => target_pad_mask padding_symbol _target i 0 && target_sub_mask n i j

/-- Translation of source_mask (line 207): an all-ones matrix of shape
(target_len, memory_len); no cross-attention position is ever masked. -/
def generate_source_mask (n m : ℕ) : Fin n → Fin m → Bool :=
  fun _ _ => true

/-! ### Scaled dot-product attention
(transformer.py: MultiHeadAttention.dot_product_attention, lines 45-63) -/

/-- Row-wise softmax (torch F.softmax with dim = -1), in exact real
arithmetic: entry j of a score row s is exp (s j) normalised by the row sum
of exponentials. -/
noncomputable def softmax_row {n : ℕ} (s : Fin n → ℝ) : Fin n → ℝ :=
  fun j => Real.exp (s j) / ∑ k, Real.exp (s k)

/-- Translation of score.masked_fill(_mask == 0, -1e9) (line 60): wherever the
mask is false the score is replaced by the finite sentinel -1e9; elsewhere the
score is kept. -/
def masked_fill {q k : ℕ} (score : Fin q → Fin k → ℝ) (mask : Fin q → Fin k → Bool) :
    Fin q → Fin k → ℝ :=
  fun i j => if mask i j then score i j else -1000000000

/-- Translation of the score computation (lines 57-58).  Note that the source
reads the normalisation dimension from the VALUE tensor: d_k = _value.size(-1),
so the divisor is sqrt of the value feature dimension dv, not of the
query/key feature dimension d. -/
noncomputable def dot_product_score {sq sk d dv : ℕ}
    (_query : Fin sq → Fin d → ℝ) (_key : Fin sk → Fin d → ℝ)
    (_value : Fin sk → Fin dv → ℝ) : Fin sq → Fin sk → ℝ :=
  fun i j => (∑ c, _query i c * _key j c) / Real.sqrt (dv : ℝ)

/-- Score formula as the specification words it (spec section 4.1 and claim
C6): raw scores = Q·Kᵗ / sqrt(d_k) with d_k the last (feature) dimension of
the query/key tensors.  Kept separate from dot_product_score, which is the
translation of the source, so the two can be compared. -/
noncomputable def spec_raw_score {sq sk d : ℕ}
    (_query : Fin sq → Fin d → ℝ) (_key : Fin sk → Fin d → ℝ) :
    Fin sq → Fin sk → ℝ :=
  fun i j => (∑ c, _query i c * _key j c) / Real.sqrt (d : ℝ)

/-- Translation of MultiHeadAttention.dot_product_attention (lines 45-63):
scores, optional masked fill, row softmax, then the weighted sum of value
rows.  Returns (output, attention weights), mirroring the pair returned by the source.
The Lean function is total: no input raises an error, matching the fact that
the torch code performs no checks beyond shape compatibility. -/
noncomputable def dot_product_attention {sq sk d dv : ℕ}
    (_query : Fin sq → Fin d → ℝ) (_key : Fin sk → Fin d → ℝ)
    (_value : Fin sk → Fin dv → ℝ) (_mask : Option (Fin sq → Fin sk → Bool)) :
    (Fin sq → Fin dv → ℝ) × (Fin sq → Fin sk → ℝ) :=
  let score := dot_product_score _query _key _value
  let filled :=
    match _mask with
    | none => score
    | some m => masked_fill score m
  let p_attn := fun i => softmax_row (filled i)
  (fun i v => ∑ j, p_attn i j * _value j v, fun i j => p_attn i j)

/-- Approximate-zero predicate used to formalise the informal symbol of the spec
for a vanishing attention weight: smaller than one percent in absolute value.
Genuinely masked weights are below 1e-8 (proved below), while a uniform row
over five keys has weight 1/5, so the threshold cleanly separates the two. -/
def approx_zero (x : ℝ) : Prop := |x| < 1 / 100

/-! ### Positional encoding (transformer.py: PositionalEncoding.__init__,
lines 114-122) -/

/-- Translation of div_term (lines 117-118): entry i of
exp(arange(0, d, 2) * -(log(10000.0) / d)), i.e. exp((2 i) · (-(log 10000)/d)). -/
noncomputable def div_term (d i : ℕ) : ℝ :=
  Real.exp ((2 * i : ℝ) * (-(Real.log 10000 / (d : ℝ))))

/-- Translation of the positional-encoding table pe (lines 115-122):
pe[pos, 2 i] = sin(pos · div_term i) and pe[pos, 2 i + 1] = cos(pos · div_term i),
for positions pos < max_len and feature indices k < d.  The table is built
once in __init__ and registered as a buffer that no code ever writes again;
modelling it as a pure function of (d, max_len, pos, k) captures that
immutability. -/
noncomputable def pe (d max_len pos k : ℕ) : ℝ :=
  if pos < max_len ∧ k < d then
    if k % 2 = 0 then Real.sin ((pos : ℝ) * div_term d (k / 2))
    else Real.cos ((pos : ℝ) * div_term d (k / 2))
  else 0

/-! ### Encoder (transformer.py lines 130-173) and
Decoder (lines 176-236), modelled structurally

The claims about these classes (C3, C7, C8) concern which sublayer parameter
set each loop iteration applies, which mask the forward pass feeds to
self-attention, and the inactive-encoder bypass.  The sublayers themselves
(already embedded above, or outside the scope of the claims) are therefore abstract
functions here: T is the tensor type flowing through the stack and P the type
of one sublayer parameter set. -/

/-- Translation of the module lists built in Encoder.__init__ (lines 135-142)
and Decoder.__init__ (lines 181-192): a list comprehension constructing
range(1 if share_parameter else nStacks) fresh modules; fresh k stands for the
k-th independently constructed parameter set. -/
def module_list {P : Type} (share : Bool) (nStacks : ℕ) (fresh : ℕ → P) : List P :=
  (List.range (if share then 1 else nStacks)).map fresh

/-- Translation of actual_i = 0 if self.share_parameter else i
(Encoder.forward line 165, Decoder.forward line 226). -/
def actual_index (share : Bool) (i : ℕ) : ℕ :=
  if share then 0 else i

/-- Structural model of Encoder: configuration flags, the constructed module
lists, and the component sublayers as abstract functions.  The encoder
self-attention mask (Encoder._generate_mask, an all-ones float matrix that
masks nothing) is absorbed into applyAttention. -/
structure EncoderModel (T P : Type) where
  withEncoder : Bool
  shareParameter : Bool
  nStacks : ℕ
  attention : List P
  positionFeedForward : List P
  position : T → T
  layerNorm : T → T
  dropout : T → T
  addRes : T → T → T
  applyAttention : P → T → T
  applyFeedForward : P → T → T

/-- Translation of Encoder.__init__ (lines 131-147): the attention and
feed-forward lists are built by the module_list comprehension; the remaining
sublayers are taken as given functions. -/
def mk_encoder {T P : Type} (withEnc share : Bool) (nStacks : ℕ)
    (freshAttention freshFeedForward : ℕ → P)
    (pos lnorm drop : T → T) (add : T → T → T)
    (appAttention appFeedForward : P → T → T) : EncoderModel T P :=
  { withEncoder := withEnc
    shareParameter := share
    nStacks := nStacks
    attention := module_list share nStacks freshAttention
    positionFeedForward := module_list share nStacks freshFeedForward
    position := pos
    layerNorm := lnorm
    dropout := drop
    addRes := add
    applyAttention := appAttention
    applyFeedForward := appFeedForward }

/-- Parameter set the encoder loop applies at iteration i:
self.attention[actual_i] (line 168). -/
def used_attention {T P : Type} [Inhabited P] (E : EncoderModel T P) (i : ℕ) : P :=
  E.attention.getD (actual_index E.shareParameter i) default

/-- Parameter set the encoder loop applies at iteration i:
self.position_feed_forward[actual_i] (line 171). -/
def used_feed_forward {T P : Type} [Inhabited P] (E : EncoderModel T P) (i : ℕ) : P :=
  E.positionFeedForward.getD (actual_index E.shareParameter i) default

/-- One iteration of the Encoder.forward loop (lines 164-171): pre-norm
residual self-attention followed by pre-norm residual feed-forward. -/
def encoder_layer_step {T P : Type} [Inhabited P] (E : EncoderModel T P)
    (i : ℕ) (output : T) : T :=
  let o1 := E.addRes output (E.dropout (E.applyAttention (used_attention E i) (E.layerNorm output)))
  E.addRes o1 (E.dropout (E.applyFeedForward (used_feed_forward E i) (E.layerNorm o1)))

/-- The Encoder.forward loop, iterations 0 .. k-1 in order. -/
def encoder_stack {T P : Type} [Inhabited P] (E : EncoderModel T P) : ℕ → T → T
  | 0, out => out
  | k + 1, out => encoder_layer_step E k (encoder_stack E k out)

/-- Translation of Encoder.forward (lines 160-173): positional encoding, then,
only when with_encoder holds, the stack loop followed by a final layer norm;
otherwise the positional-encoded tensor is returned as is. -/
def encoder_forward {T P : Type} [Inhabited P] (E : EncoderModel T P) (input : T) : T :=
  let output := E.position input
  if E.withEncoder then E.layerNorm (encoder_stack E E.nStacks output) else output

/-- Structural model of Decoder: n is the target length, m the memory length.
embedPos stands for embedding, sqrt-of-model-size scaling and positional
encoding (lines 221-222). -/
structure DecoderModel (T P : Type) (n m : ℕ) where
  shareParameter : Bool
  nStacks : ℕ
  attention : List P
  sourceAttention : List P
  positionFeedForward : List P
  paddingSymbol : ℤ
  embedPos : (Fin n → ℤ) → T
  layerNorm : T → T
  dropout : T → T
  addRes : T → T → T
  applySelfAttention : P → (Fin n → Fin n → Bool) → T → T
  applySourceAttention : P → (Fin n → Fin m → Bool) → T → T → T
  applyFeedForward : P → T → T

/-- Translation of Decoder.__init__ (lines 177-199): the three module lists
are built by the module_list comprehension. -/
def mk_decoder {T P : Type} {n m : ℕ} (share : Bool) (nStacks : ℕ)
    (freshAttention freshSourceAttention freshFeedForward : ℕ → P)
    (padding_symbol : ℤ) (embed : (Fin n → ℤ) → T)
    (lnorm drop : T → T) (add : T → T → T)
    (appSelf : P → (Fin n → Fin n → Bool) → T → T)
    (appSource : P → (Fin n → Fin m → Bool) → T → T → T)
    (appFF : P → T → T) : DecoderModel T P n m :=
  { shareParameter := share
    nStacks := nStacks
    attention := module_list share nStacks freshAttention
    sourceAttention := module_list share nStacks freshSourceAttention
    positionFeedForward := module_list share nStacks freshFeedForward
    paddingSymbol := padding_symbol
    embedPos := embed
    layerNorm := lnorm
    dropout := drop
    addRes := add
    applySelfAttention := appSelf
    applySourceAttention := appSource
    applyFeedForward := appFF }

/-- The self-attention mask Decoder.forward computes at line 223 and passes to
every self-attention call at line 229: the target mask of
Decoder._generate_target_mask for the padding symbol of this decoder. -/
def decoder_target_mask {T P : Type} {n m : ℕ} (D : DecoderModel T P n m)
    (target : Fin n → ℤ) : Fin n → Fin n → Bool :=
  generate_target_mask D.paddingSymbol target

/-- The cross-attention mask Decoder.forward computes at line 223 and passes
to every source-attention call at line 233: the all-ones source mask. -/
def decoder_source_mask {T P : Type} {n m : ℕ} (_D : DecoderModel T P n m) :
    Fin n → Fin m → Bool :=
  generate_source_mask n m

/-- Parameter set the decoder loop applies to self-attention at iteration i:
self.attention[actual_i] (line 229). -/
def decoder_used_attention {T P : Type} {n m : ℕ} [Inhabited P]
    (D : DecoderModel T P n m) (i : ℕ) : P :=
  D.attention.getD (actual_index D.shareParameter i) default

/-- Parameter set the decoder loop applies to source attention at iteration i
(line 233). -/
def decoder_used_source_attention {T P : Type} {n m : ℕ} [Inhabited P]
    (D : DecoderModel T P n m) (i : ℕ) : P :=
  D.sourceAttention.getD (actual_index D.shareParameter i) default

/-- Parameter set the decoder loop applies to feed-forward at iteration i
(line 235). -/
def decoder_used_feed_forward {T P : Type} {n m : ℕ} [Inhabited P]
    (D : DecoderModel T P n m) (i : ℕ) : P :=
  D.positionFeedForward.getD (actual_index D.shareParameter i) default

/-- One iteration of the Decoder.forward loop (lines 225-235): pre-norm
residual self-attention under the target mask, pre-norm residual cross
attention to memory under the all-ones source mask, pre-norm residual
feed-forward. -/
def decoder_layer_step {T P : Type} {n m : ℕ} [Inhabited P]
    (D : DecoderModel T P n m) (target : Fin n → ℤ) (memory : T)
    (i : ℕ) (output : T) : T :=
  let o1 := D.addRes output (D.dropout (D.applySelfAttention
    (decoder_used_attention D i) (decoder_target_mask D target) (D.layerNorm output)))
  let o2 := D.addRes o1 (D.dropout (D.applySourceAttention
    (decoder_used_source_attention D i) (decoder_source_mask D) (D.layerNorm o1) memory))
  D.addRes o2 (D.dropout (D.applyFeedForward
    (decoder_used_feed_forward D i) (D.layerNorm o2)))

/-- The Decoder.forward loop, iterations 0 .. k-1 in order. -/
def decoder_stack {T P : Type} {n m : ℕ} [Inhabited P]
    (D : DecoderModel T P n m) (target : Fin n → ℤ) (memory : T) : ℕ → T → T
  | 0, out => out
  | k + 1, out => decoder_layer_step D target memory k (decoder_stack D target memory k out)

/-- Translation of Decoder.forward (lines 220-236): embed-and-encode the
target tokens, run the stack loop with the masks of _generate_target_mask,
finish with a layer norm. -/
def decoder_forward {T P : Type} {n m : ℕ} [Inhabited P]
    (D : DecoderModel T P n m) (target : Fin n → ℤ) (memory : T) : T :=
  D.layerNorm (decoder_stack D target memory D.nStacks (D.embedPos target))

/-! ### Concrete instances used as witnesses and counterexamples -/

/-- Target sequence of the end-to-end scenario of spec section 8: length 5,
padding symbol 0, a trailing pad at position 4 and non-pad tokens before it. -/
def c1_target : Fin 5 → ℤ := ![1, 2, 3, 4, 0]

/-- All-zero 5-by-2 tensor (seq_len 5, head dimension 2 as in the end-to-end
scenario with model_dim 8 and 2 heads giving head dimension 4; any head
dimension works, 2 keeps evaluation small). -/
def zero52 : Fin 5 → Fin 2 → ℝ := fun _ _ => 0

/-- All-zero 2-by-1 tensor. -/
def zero21 : Fin 2 → Fin 1 → ℝ := fun _ _ => 0

/-- 2-by-1 tensor that is zero at position 0 and one at position 1: a
perturbation of zero21 at the future position only. -/
def step21 : Fin 2 → Fin 1 → ℝ := fun i _ => if i = 1 then 1 else 0

/-- Mask whose rows are all fully masked. -/
def false22 : Fin 2 → Fin 2 → Bool := fun _ _ => false

/-- All-one 1-by-1 tensor. -/
def one11 : Fin 1 → Fin 1 → ℝ := fun _ _ => 1

/-- All-zero 1-by-4 tensor: a value tensor whose feature dimension differs
from the query/key feature dimension. -/
def zero14 : Fin 1 → Fin 4 → ℝ := fun _ _ => 0

/-- All-zero 1-by-1 tensor. -/
def zero11 : Fin 1 → Fin 1 → ℝ := fun _ _ => 0

/-- Concrete inactive encoder over integers, built by the constructor
translation, used to witness the inactive-mode bypass. -/
def example_encoder_inactive : EncoderModel ℤ ℕ :=
  mk_encoder false true 2 (fun k => k) (fun k => k + 10)
    (fun x => x + 1) (fun x => 2 * x) (fun x => x) (fun a b => a + b)
    (fun p x => x + (p : ℤ)) (fun p x => x * (p : ℤ))

/-- Concrete shared-parameter encoder over integers with three stacks. -/
def example_encoder_shared : EncoderModel ℤ ℕ :=
  mk_encoder true true 3 (fun k => k) (fun k => k + 10)
    (fun x => x + 1) (fun x => 2 * x) (fun x => x) (fun a b => a + b)
    (fun p x => x + (p : ℤ)) (fun p x => x * (p : ℤ))

/-- Concrete shared-parameter decoder over integers with three stacks,
padding symbol 0, target length 2 and memory length 2. -/
def example_decoder : DecoderModel ℤ ℕ 2 2 :=
  mk_decoder true 3 (fun k => k) (fun k => k + 5) (fun k => k + 7) 0
    (fun _ => 0) (fun x => x) (fun x => x) (fun a b => a + b)
    (fun p _ x => x + (p : ℤ)) (fun p _ x y => x + y + (p : ℤ))
    (fun p x => x * (p : ℤ))

/-! ### Helper lemmas -/

/-- Unfolding lemma: the attention-weight component of dot_product_attention
with a mask is the row softmax of the masked-filled scores. -/
theorem dpa_weights_some {sq sk d dv : ℕ}
    (Q : Fin sq → Fin d → ℝ) (K : Fin sk → Fin d → ℝ) (V : Fin sk → Fin dv → ℝ)
    (mask : Fin sq → Fin sk → Bool) :
    (dot_product_attention Q K V (some mask)).2 =
      fun i j => softmax_row (masked_fill (dot_product_score Q K V) mask i) j := rfl

/-- Unfolding lemma: the output component of dot_product_attention with a
mask is the weight-matrix product with the value rows. -/
theorem dpa_output_some {sq sk d dv : ℕ}
    (Q : Fin sq → Fin d → ℝ) (K : Fin sk → Fin d → ℝ) (V : Fin sk → Fin dv → ℝ)
    (mask : Fin sq → Fin sk → Bool) :
    (dot_product_attention Q K V (some mask)).1 =
      fun i v => ∑ j, softmax_row (masked_fill (dot_product_score Q K V) mask i) j * V j v := rfl

/-- Unfolding lemma: without a mask the weights are the row softmax of the
raw scores. -/
theorem dpa_weights_none {sq sk d dv : ℕ}
    (Q : Fin sq → Fin d → ℝ) (K : Fin sk → Fin d → ℝ) (V : Fin sk → Fin dv → ℝ) :
    (dot_product_attention Q K V none).2 =
      fun i j => softmax_row (dot_product_score Q K V i) j := rfl

/-- A sum of exponentials over a nonempty index type is positive. -/
theorem exp_sum_pos {n : ℕ} (j : Fin n) (s : Fin n → ℝ) :
    0 < ∑ k, Real.exp (s k) := by
  have : Nonempty (Fin n) := ⟨j⟩
  exact Finset.sum_pos (fun k _ => Real.exp_pos _) Finset.univ_nonempty

/-- Every softmax entry is strictly positive. -/
theorem softmax_row_pos {n : ℕ} (s : Fin n → ℝ) (j : Fin n) :
    0 < softmax_row s j :=
  div_pos (Real.exp_pos _) (exp_sum_pos j s)

/-- Every softmax entry is non-negative. -/
theorem softmax_row_nonneg {n : ℕ} (s : Fin n → ℝ) (j : Fin n) :
    0 ≤ softmax_row s j :=
  (softmax_row_pos s j).le

/-- A softmax row sums to one (any inhabitant witnesses nonemptiness). -/
theorem softmax_row_sum_one {n : ℕ} (j : Fin n) (s : Fin n → ℝ) :
    ∑ k, softmax_row s k = 1 := by
  unfold softmax_row
  rw [← Finset.sum_div, div_self (ne_of_gt (exp_sum_pos j s))]

/-- Softmax of a constant row is the uniform distribution. -/
theorem softmax_row_const {n : ℕ} (s : Fin n → ℝ) (c : ℝ)
    (hs : ∀ k, s k = c) (j : Fin n) :
    softmax_row s j = 1 / (n : ℝ) := by
  unfold softmax_row
  have hsum : ∑ k, Real.exp (s k) = (n : ℝ) * Real.exp c := by
    rw [Finset.sum_congr rfl fun k _ => by rw [hs k]]
    simp [Finset.card_univ, mul_comm]
  rw [hs j, hsum, mul_comm (n : ℝ) (Real.exp c), ← div_div,
    div_self (Real.exp_ne_zero c)]

/-- A fully masked query row yields the uniform softmax row: every score is
the sentinel, so the distribution is 1/n on each key. -/
theorem fully_masked_row_uniform {q n : ℕ} (S : Fin q → Fin n → ℝ)
    (mask : Fin q → Fin n → Bool) (i : Fin q)
    (h : ∀ j, mask i j = false) (j : Fin n) :
    softmax_row (masked_fill S mask i) j = 1 / (n : ℝ) :=
  softmax_row_const _ (-1000000000) (fun k => by simp [masked_fill, h k]) j

/-- A softmax entry is at most the ratio of its exponential to any other
single exponential of the same row. -/
theorem softmax_row_le_ratio {n : ℕ} (s : Fin n → ℝ) (j k : Fin n) :
    softmax_row s j ≤ Real.exp (s j) / Real.exp (s k) := by
  unfold softmax_row
  have hk : Real.exp (s k) ≤ ∑ c, Real.exp (s c) :=
    Finset.single_le_sum (fun c _ => (Real.exp_pos (s c)).le) (Finset.mem_univ k)
  gcongr

/-- Weight bound for a masked key: if query row i keeps at least one key k
whose raw score is at least -100, then the softmax weight of any masked key j
of that row is at most exp (-999999900) = exp (-1e9 + 100). -/
theorem masked_weight_le {q n : ℕ} (S : Fin q → Fin n → ℝ)
    (mask : Fin q → Fin n → Bool) (i : Fin q) (j k : Fin n)
    (hj : mask i j = false) (hk : mask i k = true) (hSk : -100 ≤ S i k) :
    softmax_row (masked_fill S mask i) j ≤ Real.exp (-999999900 : ℝ) := by
  have h1 := softmax_row_le_ratio (masked_fill S mask i) j k
  have hfj : masked_fill S mask i j = -1000000000 := by simp [masked_fill, hj]
  have hfk : masked_fill S mask i k = S i k := by simp [masked_fill, hk]
  rw [hfj, hfk] at h1
  refine h1.trans ?_
  calc Real.exp (-1000000000) / Real.exp (S i k)
      = Real.exp (-1000000000 - S i k) := (Real.exp_sub _ _).symm
    _ ≤ Real.exp (-999999900) := Real.exp_le_exp.mpr (by linarith)

/-- The sentinel-scale exponential is numerically negligible: below 1e-8. -/
theorem exp_sentinel_le : Real.exp (-999999900 : ℝ) ≤ 1 / 100000000 := by
  rw [Real.exp_neg]
  have h : (100000000 : ℝ) ≤ Real.exp 999999900 := by
    have h2 := Real.add_one_le_exp (999999900 : ℝ)
    linarith
  calc (Real.exp 999999900)⁻¹ ≤ ((100000000 : ℝ))⁻¹ := by
        apply inv_anti₀ (by norm_num) h
    _ = 1 / 100000000 := by norm_num

/-- The shared-mode module list is the singleton of the first fresh module. -/
theorem module_list_shared {P : Type} (s : ℕ) (fresh : ℕ → P) :
    module_list true s fresh = [fresh 0] := by
  rfl

/-- The independent-mode module list has one entry per stack. -/
theorem module_list_length {P : Type} (s : ℕ) (fresh : ℕ → P) :
    (module_list false s fresh).length = s := by
  simp [module_list]

/-- Indexing the independent-mode module list at i < s yields the i-th fresh
module. -/
theorem module_list_getD {P : Type} [Inhabited P] (s i : ℕ) (fresh : ℕ → P)
    (hi : i < s) :
    (module_list false s fresh).getD i default = fresh i := by
  simp [module_list, List.getD, hi]

/-! ### Claims -/

/-- C2: for every target token sequence, the decoder self-attention mask of
Decoder._generate_target_mask allows query position i to attend key position
j exactly when the token at query position i is not the padding symbol and
j ≤ i — the padding test applies along the query dimension and is combined by
logical AND with the lower-triangular-inclusive causal mask. -/
theorem C2_target_mask_characterisation {n : ℕ} (padding_symbol : ℤ)
    (target : Fin n → ℤ) (i j : Fin n) :
    generate_target_mask padding_symbol target i j = true ↔
      (target i ≠ padding_symbol ∧ (j : ℕ) ≤ (i : ℕ)) := by
  simp [generate_target_mask, target_pad_mask, target_sub_mask]

/-- C3: whenever the target carries the padding symbol at some position i,
the self-attention mask that Decoder.forward computes (decoder_target_mask,
the mask of line 223 passed to every self-attention call of the stack loop at
line 229, see decoder_layer_step) has query row i entirely false: that query
row reaches the attention primitive with zero unmasked keys. -/
theorem C3_pad_query_row_fully_masked {T P : Type} {n m : ℕ}
    (D : DecoderModel T P n m) (target : Fin n → ℤ) (i : Fin n)
    (h : target i = D.paddingSymbol) (j : Fin n) :
    decoder_target_mask D target i j = false := by
  simp [decoder_target_mask, generate_target_mask, target_pad_mask, h]

/-- C3 witness: the concrete decoder with padding symbol 0 on the target
(0, 1) has a fully masked query row 0. -/
theorem C3_witness : decoder_target_mask example_decoder ![0, 1] 0 1 = false :=
  C3_pad_query_row_fully_masked example_decoder ![0, 1] 0 rfl 1

/-- C4: on a mask whose query row i has zero unmasked keys,
dot_product_attention raises no error (the embedding is a total function,
matching the check-free torch code) and returns for that row the softmax of
all-sentinel (-1e9) scores: the numerically uniform distribution 1/seq_len
over all keys. -/
theorem C4_fully_masked_row_uniform_weights {sq sk d dv : ℕ}
    (Q : Fin sq → Fin d → ℝ) (K : Fin sk → Fin d → ℝ) (V : Fin sk → Fin dv → ℝ)
    (mask : Fin sq → Fin sk → Bool) (i : Fin sq)
    (h : ∀ j, mask i j = false) (j : Fin sk) :
    (dot_product_attention Q K V (some mask)).2 i j = 1 / (sk : ℝ) :=
  fully_masked_row_uniform (dot_product_score Q K V) mask i h j

/-- C4 witness: a fully masked 2-key row yields weight 1/2 on each key. -/
theorem C4_witness :
    (dot_product_attention zero21 zero21 zero21 (some false22)).2 0 1 = 1 / (2 : ℝ) := by
  have h := C4_fully_masked_row_uniform_weights zero21 zero21 zero21 false22 0
    (fun j => rfl) 1
  simpa using h

/-- C6 counterexample: dot_product_attention reads the normalisation
dimension from the value tensor (d_k = _value.size(-1)).  With a
1-dimensional query/key and a 4-dimensional value, both all-ones/all-zero,
the raw score of the code is 1/sqrt 4 = 1/2 while the formula of the claim
Q·Kᵗ / sqrt(query/key dimension) gives 1/sqrt 1 = 1. -/
theorem C6_counterexample :
    dot_product_score one11 one11 zero14 0 0 ≠ spec_raw_score one11 one11 0 0 := by
  have h4 : Real.sqrt ((4 : ℕ) : ℝ) = 2 := by
    rw [show ((4 : ℕ) : ℝ) = 2 ^ 2 by norm_num]
    exact Real.sqrt_sq (by norm_num)
  have h1 : Real.sqrt ((1 : ℕ) : ℝ) = 1 := by simp
  simp only [dot_product_score, spec_raw_score, one11, Fin.sum_univ_one, h4, h1]
  norm_num

/-- C6 amended: the raw pre-softmax scores equal Q·Kᵗ divided by the square
root of the last dimension of the VALUE tensor; whenever that dimension equals the
query/key feature dimension — as holds for every call MultiHeadAttention.forward
makes, where d_q = d_k = d_v — this coincides with the claimed formula. -/
theorem C6_amended_score_formula {sq sk d dv : ℕ} (h : dv = d)
    (Q : Fin sq → Fin d → ℝ) (K : Fin sk → Fin d → ℝ) (V : Fin sk → Fin dv → ℝ)
    (i : Fin sq) (j : Fin sk) :
    dot_product_score Q K V i j = spec_raw_score Q K i j := by
  subst h; rfl

/-- C6 witness: with matching dimensions the score of the code is the claimed
formula. -/
theorem C6_witness :
    dot_product_score one11 one11 zero11 0 0 = spec_raw_score one11 one11 0 0 :=
  C6_amended_score_formula rfl one11 one11 zero11 0 0

/-- C7: with the encoder-active flag off, Encoder.forward returns exactly the
positional-encoded input: the attention, feed-forward and layer-norm
sublayers of the stack are never applied to it. -/
theorem C7_inactive_encoder_identity {T P : Type} [Inhabited P]
    (E : EncoderModel T P) (input : T) (h : E.withEncoder = false) :
    encoder_forward E input = E.position input := by
  simp [encoder_forward, h]

/-- C7 witness: the concrete inactive encoder is the positional encoding on
the input 5. -/
theorem C7_witness :
    encoder_forward example_encoder_inactive 5 = example_encoder_inactive.position 5 :=
  C7_inactive_encoder_identity example_encoder_inactive 5 rfl

/-- C9: with no mask supplied, the attention-weight matrix has non-negative
entries, each query row sums to one, and each output row is exactly the
corresponding weight combination of the value rows — a convex combination. -/
theorem C9_unmasked_weights_convex {sq sk d dv : ℕ} (hk : 0 < sk)
    (Q : Fin sq → Fin d → ℝ) (K : Fin sk → Fin d → ℝ) (V : Fin sk → Fin dv → ℝ) :
    (∀ i j, 0 ≤ (dot_product_attention Q K V none).2 i j) ∧
    (∀ i, ∑ j, (dot_product_attention Q K V none).2 i j = 1) ∧
    (∀ i v, (dot_product_attention Q K V none).1 i v =
      ∑ j, (dot_product_attention Q K V none).2 i j * V j v) :=
  ⟨fun _ j => softmax_row_nonneg _ j,
   fun _ => softmax_row_sum_one ⟨0, hk⟩ _,
   fun _ _ => rfl⟩

/-- C9 witness: on the 1-by-1 zero tensors the weight row sums to one. -/
theorem C9_witness :
    ∑ j, (dot_product_attention zero11 zero11 zero11 none).2 0 j = 1 :=
  (C9_unmasked_weights_convex (by norm_num) zero11 zero11 zero11).2.1 0

/-- C1 counterexample: in the end-to-end scenario the target (1, 2, 3, 4, 0)
carries a trailing pad at position 4, and the claim asks every query position
to assign approximately zero weight to that padded key.  The pad masking acts
on the query dimension, so query row 4 is itself fully masked and its softmax
row is uniform: the weight on key 4 at query 4 is exactly 1/5, not
approximately zero.  Concretely with all-zero Q, K, V the universally
quantified claim is false. -/
theorem C1_counterexample :
    ¬ ∀ i : Fin 5, approx_zero
      ((dot_product_attention zero52 zero52 zero52
        (some (generate_target_mask 0 c1_target))).2 i 4) := by
  intro h
  have h4 := h 4
  rw [dpa_weights_some] at h4
  simp only at h4
  rw [fully_masked_row_uniform _ _ 4 (by decide) 4] at h4
  unfold approx_zero at h4
  rw [abs_div] at h4
  norm_num at h4

/-- C1 amended: with target (1, 2, 3, 4, 0) (trailing pad, padding symbol 0),
for every NON-pad query position i the decoder self-attention weight on the
padded trailing key position 4 is approximately zero — at most 1e-8 whenever
the scaled raw scores lie within plus or minus 100 — and the weight on every
non-future key j ≤ i is strictly positive.  The padded query position 4
itself, being fully masked, instead receives the uniform weight 1/5 on every
key (see the counterexample), which is the single deviation from the claim. -/
theorem C1_amended_pad_key_weight {d dv : ℕ}
    (Q : Fin 5 → Fin d → ℝ) (K : Fin 5 → Fin d → ℝ) (V : Fin 5 → Fin dv → ℝ)
    (hbound : ∀ a b : Fin 5, |dot_product_score Q K V a b| ≤ 100)
    (i : Fin 5) (hpad : c1_target i ≠ 0) :
    approx_zero ((dot_product_attention Q K V
      (some (generate_target_mask 0 c1_target))).2 i 4) ∧
    ∀ j : Fin 5, (j : ℕ) ≤ (i : ℕ) →
      0 < (dot_product_attention Q K V
        (some (generate_target_mask 0 c1_target))).2 i j := by
  constructor
  · rw [dpa_weights_some]
    simp only
    have hj : generate_target_mask 0 c1_target i 4 = false := by
      fin_cases i
      · decide
      · decide
      · decide
      · decide
      · exact absurd (by decide) hpad
    have hk : generate_target_mask 0 c1_target i i = true := by
      fin_cases i
      · decide
      · decide
      · decide
      · decide
      · exact absurd (by decide) hpad
    have hb := masked_weight_le (dot_product_score Q K V)
      (generate_target_mask 0 c1_target) i 4 i hj hk ((abs_le.mp (hbound i i)).1)
    have hsmall := hb.trans exp_sentinel_le
    unfold approx_zero
    rw [abs_of_nonneg (softmax_row_nonneg _ _)]
    linarith
  · intro j _
    rw [dpa_weights_some]
    exact softmax_row_pos _ j

/-- C1 witness: with all-zero Q, K, V (scores 0, within the bound) the
non-pad query position 0 assigns an approximately zero weight to the padded
trailing key. -/
theorem C1_witness :
    approx_zero ((dot_product_attention zero52 zero52 zero52
      (some (generate_target_mask 0 c1_target))).2 0 4) := by
  refine (C1_amended_pad_key_weight zero52 zero52 zero52 ?_ 0 (by decide)).1
  intro a b
  simp [dot_product_score, zero52]

/-- C5 counterexample: masking uses the finite sentinel -1e9, not hard
exclusion, so in exact arithmetic the causally masked weight on a future key
is positive and the output at an earlier position is NOT left unchanged by a
perturbation of V at a later position: with 2-position all-zero Q, K and a
perturbation of V at position 1 only, the output at position 0 changes. -/
theorem C5_counterexample :
    (dot_product_attention zero21 zero21 zero21 (some (subsequent_mask 2))).1 0 0 ≠
    (dot_product_attention zero21 zero21 step21 (some (subsequent_mask 2))).1 0 0 := by
  have hL : (dot_product_attention zero21 zero21 zero21 (some (subsequent_mask 2))).1 0 0 = 0 := by
    rw [dpa_output_some]
    simp [zero21]
  have hR : 0 < (dot_product_attention zero21 zero21 step21 (some (subsequent_mask 2))).1 0 0 := by
    rw [dpa_output_some]
    simp only [Fin.sum_univ_two, step21]
    norm_num
    exact softmax_row_pos _ 1
  rw [hL]
  exact ne_of_lt hR

/-- C5 amended: under the fully causal mask the influence of the value row at
a future position j > i on the output at position i is not exactly zero (the
sentinel is finite) but is numerically negligible: whenever the scaled raw
scores lie within plus or minus 100, perturbing V at position j changes the
output at position i by at most 1e-8 times the perturbation. -/
theorem C5_amended_causal_influence_bound {n d dv : ℕ}
    (Q : Fin n → Fin d → ℝ) (K : Fin n → Fin d → ℝ) (V W : Fin n → Fin dv → ℝ)
    (i j : Fin n) (hij : (i : ℕ) < (j : ℕ))
    (hagree : ∀ k, k ≠ j → V k = W k)
    (hbound : ∀ a b : Fin n, |dot_product_score Q K V a b| ≤ 100) (v : Fin dv) :
    |(dot_product_attention Q K V (some (subsequent_mask n))).1 i v -
      (dot_product_attention Q K W (some (subsequent_mask n))).1 i v| ≤
      1 / 100000000 * |V j v - W j v| := by
  have hS : dot_product_score Q K W = dot_product_score Q K V := rfl
  rw [dpa_output_some, dpa_output_some, hS]
  simp only
  set p := fun a b => softmax_row (masked_fill (dot_product_score Q K V) (subsequent_mask n) a) b with hp
  have hdiff : (∑ k, p i k * V k v) - (∑ k, p i k * W k v) = p i j * (V j v - W j v) := by
    rw [← Finset.sum_sub_distrib]
    rw [Finset.sum_eq_single j]
    · ring
    · intro b _ hb
      rw [hagree b hb]
      ring
    · intro hj
      exact absurd (Finset.mem_univ j) hj
  rw [hdiff, abs_mul]
  have hmask_j : subsequent_mask n i j = false := by
    simp [subsequent_mask, Nat.not_le.mpr hij]
  have hmask_i : subsequent_mask n i i = true := by simp [subsequent_mask]
  have hb := masked_weight_le (dot_product_score Q K V) (subsequent_mask n)
    i j i hmask_j hmask_i ((abs_le.mp (hbound i i)).1)
  have hsmall : p i j ≤ 1 / 100000000 := hb.trans exp_sentinel_le
  have hnn : |p i j| = p i j := abs_of_nonneg (softmax_row_nonneg _ _)
  rw [hnn]
  exact mul_le_mul_of_nonneg_right hsmall (abs_nonneg _)

/-- C5 witness: the concrete 2-position perturbation satisfies the bound. -/
theorem C5_witness :
    |(dot_product_attention zero21 zero21 zero21 (some (subsequent_mask 2))).1 0 0 -
      (dot_product_attention zero21 zero21 step21 (some (subsequent_mask 2))).1 0 0| ≤
      1 / 100000000 * |zero21 1 0 - step21 1 0| := by
  refine C5_amended_causal_influence_bound zero21 zero21 zero21 step21 0 1
    (by norm_num) ?_ ?_ 0
  · intro k hk
    fin_cases k
    · funext c
      simp [zero21, step21]
    · exact absurd rfl hk
  · intro a b
    simp [dot_product_score, zero21]

/-- C8: parameter sharing across stack layers.  For any encoder and decoder
whose module lists were built by the constructor comprehension (module_list) —
the encoder attention and feed-forward lists and the decoder self-attention,
source-attention and feed-forward lists: when the shared-parameter flag is on,
every constructed list is the singleton of its one fresh parameter set and
every iteration of the forward loop applies exactly that one set
(used_attention, used_feed_forward, decoder_used_attention,
decoder_used_source_attention and decoder_used_feed_forward are the parameter
sets encoder_layer_step and decoder_layer_step apply at iteration i); when the
flag is off, each list has one independently constructed set per stack and
iteration i applies the i-th.  The lists and the flag are fields fixed at
construction; nothing in the model mutates them. -/
theorem C8_parameter_sharing {T P : Type} [Inhabited P] {n m : ℕ}
    (E : EncoderModel T P) (D : DecoderModel T P n m)
    (freshA freshF freshDA freshDS freshDF : ℕ → P)
    (hEA : E.attention = module_list E.shareParameter E.nStacks freshA)
    (hEF : E.positionFeedForward = module_list E.shareParameter E.nStacks freshF)
    (hDA : D.attention = module_list D.shareParameter D.nStacks freshDA)
    (hDS : D.sourceAttention = module_list D.shareParameter D.nStacks freshDS)
    (hDF : D.positionFeedForward = module_list D.shareParameter D.nStacks freshDF)
    (hshare : D.shareParameter = E.shareParameter) :
    (E.shareParameter = true →
      E.attention = [freshA 0] ∧ E.positionFeedForward = [freshF 0] ∧
      D.attention = [freshDA 0] ∧ D.sourceAttention = [freshDS 0] ∧
      D.positionFeedForward = [freshDF 0] ∧
      ∀ i : ℕ, used_attention E i = freshA 0 ∧ used_feed_forward E i = freshF 0 ∧
        decoder_used_attention D i = freshDA 0 ∧
        decoder_used_source_attention D i = freshDS 0 ∧
        decoder_used_feed_forward D i = freshDF 0) ∧
    (E.shareParameter = false →
      E.attention.length = E.nStacks ∧ E.positionFeedForward.length = E.nStacks ∧
      D.attention.length = D.nStacks ∧ D.sourceAttention.length = D.nStacks ∧
      D.positionFeedForward.length = D.nStacks ∧
      (∀ i : ℕ, i < E.nStacks →
        used_attention E i = freshA i ∧ used_feed_forward E i = freshF i) ∧
      ∀ i : ℕ, i < D.nStacks → decoder_used_attention D i = freshDA i ∧
        decoder_used_source_attention D i = freshDS i ∧
        decoder_used_feed_forward D i = freshDF i) := by
  constructor
  · intro hs
    refine ⟨by rw [hEA, hs, module_list_shared],
      by rw [hEF, hs, module_list_shared],
      by rw [hDA, hshare, hs, module_list_shared],
      by rw [hDS, hshare, hs, module_list_shared],
      by rw [hDF, hshare, hs, module_list_shared], fun i => ?_⟩
    refine ⟨?_, ?_, ?_, ?_, ?_⟩
    · rw [used_attention, hEA, hs, module_list_shared]
      simp [actual_index]
    · rw [used_feed_forward, hEF, hs, module_list_shared]
      simp [actual_index]
    · rw [decoder_used_attention, hDA, hshare, hs, module_list_shared]
      simp [actual_index]
    · rw [decoder_used_source_attention, hDS, hshare, hs, module_list_shared]
      simp [actual_index]
    · rw [decoder_used_feed_forward, hDF, hshare, hs, module_list_shared]
      simp [actual_index]
  · intro hs
    refine ⟨by rw [hEA, hs, module_list_length],
      by rw [hEF, hs, module_list_length],
      by rw [hDA, hshare, hs, module_list_length],
      by rw [hDS, hshare, hs, module_list_length],
      by rw [hDF, hshare, hs, module_list_length], fun i hi => ?_, fun i hi => ?_⟩
    · constructor
      · rw [used_attention, hEA, hs]
        simpa [actual_index] using module_list_getD E.nStacks i freshA hi
      · rw [used_feed_forward, hEF, hs]
        simpa [actual_index] using module_list_getD E.nStacks i freshF hi
    · refine ⟨?_, ?_, ?_⟩
      · rw [decoder_used_attention, hDA, hshare, hs]
        simpa [actual_index] using module_list_getD D.nStacks i freshDA hi
      · rw [decoder_used_source_attention, hDS, hshare, hs]
        simpa [actual_index] using module_list_getD D.nStacks i freshDS hi
      · rw [decoder_used_feed_forward, hDF, hshare, hs]
        simpa [actual_index] using module_list_getD D.nStacks i freshDF hi

/-- C8 witness: in the concrete shared-parameter encoder every loop iteration
(iteration 2 shown) applies the single constructed attention parameter set,
which is fresh parameter 0. -/
theorem C8_witness : used_attention example_encoder_shared 2 = 0 :=
  (((C8_parameter_sharing example_encoder_shared example_decoder
    (fun k => k) (fun k => k + 10) (fun k => k) (fun k => k + 5) (fun k => k + 7)
    rfl rfl rfl rfl rfl rfl).1 rfl).2.2.2.2.2 2).1

/-- C10: the positional-encoding table satisfies
pe[pos, 2 i] = sin(pos / 10000 ^ (2 i / d)) and
pe[pos, 2 i + 1] = cos(pos / 10000 ^ (2 i / d)) for every position
pos < max_len and in-range even/odd index pair; in particular
pe[pos, 0] = sin pos and pe[pos, 1] = cos pos.  The table is modelled as a
pure function: the source computes it once in the constructor, registers it
as a buffer and never writes it again. -/
theorem C10_positional_encoding_table (d max_len pos i : ℕ)
    (hpos : pos < max_len) (hd : 2 * i + 1 < d) :
    pe d max_len pos (2 * i) =
      Real.sin ((pos : ℝ) / (10000 : ℝ) ^ ((2 * (i : ℝ)) / (d : ℝ))) ∧
    pe d max_len pos (2 * i + 1) =
      Real.cos ((pos : ℝ) / (10000 : ℝ) ^ ((2 * (i : ℝ)) / (d : ℝ))) ∧
    pe d max_len pos 0 = Real.sin (pos : ℝ) ∧
    pe d max_len pos 1 = Real.cos (pos : ℝ) := by
  have hdt : ∀ k : ℕ, div_term d k =
      (10000 : ℝ) ^ (-((2 * (k : ℝ)) / (d : ℝ))) := by
    intro k
    rw [Real.rpow_def_of_pos (by norm_num : (0 : ℝ) < 10000)]
    unfold div_term
    congr 1
    ring
  have hsin : ∀ k : ℕ, (pos : ℝ) * div_term d k =
      (pos : ℝ) / (10000 : ℝ) ^ ((2 * (k : ℝ)) / (d : ℝ)) := by
    intro k
    rw [hdt k, Real.rpow_neg (by norm_num : (0 : ℝ) ≤ 10000)]
    exact (div_eq_mul_inv _ _).symm
  refine ⟨?_, ?_, ?_, ?_⟩
  · unfold pe
    rw [if_pos ⟨hpos, by omega⟩, if_pos (by omega : 2 * i % 2 = 0),
      (by omega : 2 * i / 2 = i), hsin i]
  · unfold pe
    rw [if_pos ⟨hpos, hd⟩, if_neg (by omega : ¬(2 * i + 1) % 2 = 0),
      (by omega : (2 * i + 1) / 2 = i), hsin i]
  · unfold pe
    rw [if_pos ⟨hpos, by omega⟩, if_pos (by norm_num)]
    norm_num [div_term]
  · unfold pe
    rw [if_pos ⟨hpos, by omega⟩, if_neg (by norm_num)]
    norm_num [div_term]

/-- C10 witness: with d = 2, max_len = 1, the entry at position 0, index 0 is
sin 0. -/
theorem C10_witness : pe 2 1 0 0 = Real.sin (((0 : ℕ) : ℝ)) :=
  (C10_positional_encoding_table 2 1 0 0 (by norm_num) (by norm_num)).2.2.1

end MasterTransformer
